import Mathlib

/-!
Shallow embedding of the fe_o8 CHIP-8 emulator core (src/main.rs) and
verification of the specification claims about it.

Machine words are modelled as `Nat` with explicit `% 2^w` reductions at the
points where the Rust code performs wrapping machine arithmetic.  Rust panics
(failed assertions, `unwrap` on an empty stack, the `panic!` arm of the opcode
match, and implicit slice-bounds panics) are modelled as values of an error
type carried in `Except`.
-/

namespace Fe08

/-- `VAR_AND_DISPLAY_REFRESH_SIZE` from main.rs. -/
def VAR_AND_DISPLAY_REFRESH_SIZE : Nat := 352

/-- `MEMORY_SIZE` from main.rs. -/
def MEMORY_SIZE : Nat := 0x1000

/-- `ADDR_START_PROGRAM` from main.rs. -/
def ADDR_START_PROGRAM : Nat := 0x200

/-- `ADDR_PROGRAM_END = MEMORY_SIZE - VAR_AND_DISPLAY_REFRESH_SIZE` from main.rs. -/
def ADDR_PROGRAM_END : Nat := MEMORY_SIZE - VAR_AND_DISPLAY_REFRESH_SIZE

/-- The `Chip8` machine state struct from main.rs.  `memory` holds one byte per
address (only addresses `< 0x1000` are meaningful), `display` holds one 64-bit
row bitmask per row index `0..31`, `v` holds the sixteen 8-bit registers,
`stack` is the call stack with its most recently pushed element at the head
(mirroring push/pop at the end of the Rust `Vec`). -/
structure Chip8 where
  memory : Nat → Nat
  display : Nat → Nat
  pc : Nat
  stack : List Nat
  delay : Nat
  sound : Nat
  v : Nat → Nat
  i : Nat

/-- The decoded instruction struct `Opcode` from main.rs. -/
structure Opcode where
  n0 : Nat
  n1 : Nat
  n2 : Nat
  n3 : Nat
  a : Nat
  v : Nat
deriving DecidableEq

/-- The ways the Rust program can abort: the decoder's failed `assert!`, the
`unwrap` of `stack.pop()` on an empty stack in the RET arm, the `panic!` of the
catch-all opcode arm, and the implicit out-of-bounds panic of a slice or array
index. -/
inductive Err where
  | assertFailed
  | stackUnderflow
  | unknownOpcode
  | outOfBounds
deriving DecidableEq

/-- Truncation to 16 bits, the wrap-around of Rust `u16` arithmetic. -/
def wrap16 (n : Nat) : Nat := n % 0x10000

/-- Pointwise update of a register/memory/display function at one index. -/
def upd (f : Nat → Nat) (k x : Nat) : Nat → Nat := fun j => if j = k then x else f j

/-- `Opcode::from_slice` from main.rs applied to the slice `&memory[pc..]`.
The slice has length `MEMORY_SIZE - pc`; the function asserts `slice.len() > 2`
and then derives the nibbles, the 12-bit address field and the raw second byte
from `slice[0]` and `slice[1]`. -/
def fromSlice (mem : Nat → Nat) (pc : Nat) : Except Err Opcode :=
  if MEMORY_SIZE - pc > 2 then
    .ok { n0 := (mem pc &&& 0xF0) >>> 4
        , n1 := mem pc &&& 0x0F
        , n2 := (mem (pc + 1) &&& 0xF0) >>> 4
        , n3 := mem (pc + 1) &&& 0x0F
        , a := ((mem pc &&& 0x0F) <<< 8) ||| mem (pc + 1)
        , v := mem (pc + 1) }
  else
    .error .assertFailed

/-- `FONT_ARR` from main.rs: 16 glyphs of 5 bytes each. -/
def FONT_ARR : List Nat :=
  [0xF0, 0x90, 0x90, 0x90, 0xF0,
   0x20, 0x60, 0x20, 0x20, 0x70,
   0xF0, 0x10, 0xF0, 0x80, 0xF0,
   0xF0, 0x10, 0xF0, 0x10, 0xF0,
   0x90, 0x90, 0xF0, 0x10, 0x10,
   0xF0, 0x80, 0xF0, 0x10, 0xF0,
   0xF0, 0x80, 0xF0, 0x90, 0xF0,
   0xF0, 0x10, 0x20, 0x40, 0x40,
   0xF0, 0x90, 0xF0, 0x90, 0xF0,
   0xF0, 0x90, 0xF0, 0x10, 0xF0,
   0xF0, 0x90, 0xF0, 0x90, 0x90,
   0xE0, 0x90, 0xE0, 0x90, 0xE0,
   0xF0, 0x80, 0x80, 0x80, 0xF0,
   0xE0, 0x90, 0x90, 0x90, 0xE0,
   0xF0, 0x80, 0xF0, 0x80, 0xF0,
   0xF0, 0x80, 0xF0, 0x80, 0x80]

/-- `FONT_ADDR` from main.rs: the glyph base-address table indexed by hex digit. -/
def FONT_ADDR : List Nat :=
  [0x050, 0x055, 0x05A, 0x05F,
   0x064, 0x069, 0x06E, 0x073,
   0x078, 0x07D, 0x082, 0x087,
   0x08C, 0x091, 0x096, 0x09A]

/-- The memory contents after `main` zero-initialises memory and copies
`FONT_ARR` into `memory[0x050..0x0A0]`, before the ROM is loaded. -/
def initMemory : Nat → Nat := fun a =>
  if 0x050 ≤ a ∧ a < 0x0A0 then FONT_ARR.getD (a - 0x050) 0 else 0

/-- The ROM load in `main`:
`file.take(ADDR_PROGRAM_END - ADDR_START_PROGRAM).read_exact(&mut memory[ADDR_START_PROGRAM..ADDR_PROGRAM_END])`
with an `UnexpectedEof` silently ignored.  Address `a` receives ROM byte
`a - ADDR_START_PROGRAM` when that byte exists and `a` lies inside the program
region; every other address keeps its previous contents. -/
def loadRom (rom : List Nat) (mem : Nat → Nat) : Nat → Nat := fun a =>
  if ADDR_START_PROGRAM ≤ a ∧ a < ADDR_PROGRAM_END ∧ a - ADDR_START_PROGRAM < rom.length
  then rom.getD (a - ADDR_START_PROGRAM) 0
  else mem a

/-- The Fx0A scan from main.rs: the first `k` in `0x0..=0xF` with
`last_keys[k] && (last_keys[k] ^ keys[k])`, i.e. the first key pressed on the
previous tick and released on the current one. -/
def findRelease (last_keys keys : Nat → Bool) : Option Nat :=
  (List.range 16).find? fun k => last_keys k && (xor (last_keys k) (keys k))

/-- The DRW sprite loop from main.rs.  One iteration per remaining sprite row
(`fuel` counts `imax - i` down, so `fuel = 0` is the `i < imax` exit of the
`while coord_y < 32 && i < imax` condition).  Each iteration stages the sprite
byte in 128-bit arithmetic, rotates and truncates it to the 64-bit row mask,
overwrites `v[0xF]` with this row's collision bit and XORs the mask into the
display row.  Reading `memory[i]` with `i ≥ MEMORY_SIZE` is the implicit
bounds panic of the Rust indexing. -/
def drwGo (coord_x : Nat) (coord_y i fuel : Nat) (c : Chip8) : Except Err Chip8 :=
  match fuel with
  | 0 => .ok c
  | fuel' + 1 =>
    if coord_y < 32 then
      if i < MEMORY_SIZE then
        let sprite := c.memory i <<< (32 + 64 - 8)
        let sprite := sprite >>> coord_x
        let mask := (sprite >>> 32) ||| ((sprite <<< 96) % 2 ^ 128)
        let mask := mask &&& 0xFFFFFFFFFFFFFFFF
        let vf : Nat := if mask &&& c.display coord_y > 0 then 0x1 else 0x0
        drwGo coord_x (coord_y + 1) (i + 1) fuel'
          { c with v := upd c.v 0xF vf
                 , display := upd c.display coord_y (c.display coord_y ^^^ mask) }
      else .error .outOfBounds
    else .ok c

/-- The DRW arm of the opcode match: start column `v[x] % 64`, start row
`v[y] % 32`, clear `v[0xF]`, then run the row loop for `n` rows starting at
memory address `i`. -/
def drw (c : Chip8) (x y n : Nat) : Except Err Chip8 :=
  let coord_x := c.v x % 64
  let coord_y := c.v y % 32
  drwGo coord_x coord_y c.i n { c with v := upd c.v 0xF 0 }

/-- The decode-and-execute `match op` from main.rs, applied to the state whose
`pc` has already been advanced past the fetched instruction.  `keys` and
`last_keys` are the current and previous tick's keypad states, `rnd` models the
`random::<u8>()` draw of the Cxkk arm.  8-bit register arithmetic wraps with
`% 256` (Rust `overflowing_add`/`overflowing_sub`/`<<`), 16-bit `pc`/`i`
arithmetic wraps with `wrap16`.  Unchecked Rust indexing of `memory` is
modelled by explicit range tests returning `Err.outOfBounds`, the panics of
the RET `unwrap` and the catch-all arm by their own error values. -/
def execOp (keys last_keys : Nat → Bool) (rnd : Nat) (op : Opcode) (c : Chip8) :
    Except Err Chip8 :=
  match op.n0, op.n1, op.n2, op.n3 with
  | 0x0, 0x0, 0xE, 0x0 => .ok { c with display := fun _ => 0 }
  | 0x0, 0x0, 0xE, 0xE =>
      match c.stack with
      | [] => .error .stackUnderflow
      | p :: rest => .ok { c with pc := p, stack := rest }
  | 0x1, _, _, _ => .ok { c with pc := op.a }
  | 0x2, _, _, _ => .ok { c with stack := c.pc :: c.stack, pc := op.a }
  | 0x3, x, _, _ => .ok (if c.v x = op.v then { c with pc := wrap16 (c.pc + 2) } else c)
  | 0x4, x, _, _ => .ok (if c.v x ≠ op.v then { c with pc := wrap16 (c.pc + 2) } else c)
  | 0x5, x, y, 0x0 => .ok (if c.v x = c.v y then { c with pc := wrap16 (c.pc + 2) } else c)
  | 0x6, x, _, _ => .ok { c with v := upd c.v x op.v }
  | 0x7, x, _, _ => .ok { c with v := upd c.v x ((c.v x + op.v) % 256) }
  | 0x8, x, y, 0x0 => .ok { c with v := upd c.v x (c.v y) }
  | 0x8, x, y, 0x1 => .ok { c with v := upd (upd c.v x (c.v x ||| c.v y)) 0xF 0 }
  | 0x8, x, y, 0x2 => .ok { c with v := upd (upd c.v x (c.v x &&& c.v y)) 0xF 0 }
  | 0x8, x, y, 0x3 => .ok { c with v := upd (upd c.v x (c.v x ^^^ c.v y)) 0xF 0 }
  | 0x8, x, y, 0x4 =>
      .ok { c with v := upd (upd c.v x ((c.v x + c.v y) % 256)) 0xF
                          (if 256 ≤ c.v x + c.v y then 1 else 0) }
  | 0x8, x, y, 0x5 =>
      .ok { c with v := upd (upd c.v x ((c.v x + 256 - c.v y) % 256)) 0xF
                          (if c.v x < c.v y then 0 else 1) }
  | 0x8, x, y, 0x6 =>
      .ok { c with v := upd (upd c.v x (c.v y >>> 1)) 0xF (c.v y &&& 0x1) }
  | 0x8, x, y, 0x7 =>
      .ok { c with v := upd (upd c.v x ((c.v y + 256 - c.v x) % 256)) 0xF
                          (if c.v y < c.v x then 0 else 1) }
  | 0x8, x, y, 0xE =>
      .ok { c with v := upd (upd c.v x ((c.v y <<< 1) % 256)) 0xF
                          ((c.v y &&& 0b10000000) >>> 7) }
  | 0x9, x, y, 0x0 => .ok (if c.v x ≠ c.v y then { c with pc := wrap16 (c.pc + 2) } else c)
  | 0xA, _, _, _ => .ok { c with i := op.a }
  | 0xB, _, _, _ => .ok { c with pc := wrap16 (op.a + c.v 0) }
  | 0xC, x, _, _ => .ok { c with v := upd c.v x (rnd &&& op.v) }
  | 0xD, x, y, n => drw c x y n
  | 0xE, x, 0x9, 0xE =>
      .ok (if keys (c.v x &&& 0x0F) then { c with pc := wrap16 (c.pc + 2) } else c)
  | 0xE, x, 0xA, 0x1 =>
      .ok (if ! keys (c.v x &&& 0x0F) then { c with pc := wrap16 (c.pc + 2) } else c)
  | 0xF, x, 0x0, 0x7 => .ok { c with v := upd c.v x c.delay }
  | 0xF, x, 0x0, 0xA =>
      match findRelease last_keys keys with
      | some k => .ok { c with
          pc := wrap16 (wrap16 (c.pc + 0x10000 - 2) + 2),
          v := upd c.v x k }
      | none => .ok { c with pc := wrap16 (c.pc + 0x10000 - 2) }
  | 0xF, x, 0x1, 0x5 => .ok { c with delay := c.v x }
  | 0xF, x, 0x1, 0x8 => .ok { c with sound := c.v x }
  | 0xF, x, 0x1, 0xE =>
      let value := wrap16 (c.i + c.v x)
      .ok { c with v := upd c.v 0xF (if value &&& 0xF000 > 0 then 1 else 0), i := value }
  | 0xF, x, 0x2, 0x9 => .ok { c with i := FONT_ADDR.getD (c.v x &&& 0x0F) 0 }
  | 0xF, x, 0x3, 0x3 =>
      if c.i + 2 < MEMORY_SIZE then
        .ok { c with memory := fun j =>
                if j = c.i then c.v x / 100
                else if j = c.i + 1 then c.v x % 100 / 10
                else if j = c.i + 2 then c.v x % 10
                else c.memory j }
      else .error .outOfBounds
  | 0xF, x, 0x5, 0x5 =>
      if c.i + x < MEMORY_SIZE then
        .ok { c with memory := fun j =>
                if c.i ≤ j ∧ j ≤ c.i + x then c.v (j - c.i) else c.memory j }
      else .error .outOfBounds
  | 0xF, x, 0x6, 0x5 =>
      if c.i + x < MEMORY_SIZE then
        .ok { c with v := fun j => if j ≤ x then c.memory (c.i + j) else c.v j }
      else .error .outOfBounds
  | _, _, _, _ => .error .unknownOpcode

/-- One fetch-decode-execute iteration of the inner `for _ in 0..12` loop of
`main`: decode at `pc`, advance `pc` by 2, execute. -/
def step (keys last_keys : Nat → Bool) (rnd : Nat) (c : Chip8) : Except Err Chip8 :=
  match fromSlice c.memory c.pc with
  | .error e => .error e
  | .ok op => execOp keys last_keys rnd op { c with pc := wrap16 (c.pc + 2) }

/-- Register `j` of the machine after a (possibly failed) execution. -/
def regAfter (r : Except Err Chip8) (j : Nat) : Option Nat :=
  r.toOption.map fun s => s.v j

/-- Display row `j` of the machine after a (possibly failed) execution. -/
def rowAfter (r : Except Err Chip8) (j : Nat) : Option Nat :=
  r.toOption.map fun s => s.display j

/-- Index register `i` of the machine after a (possibly failed) execution. -/
def iAfter (r : Except Err Chip8) : Option Nat :=
  r.toOption.map fun s => s.i

/-- The all-released keypad state. -/
def noKeys : Nat → Bool := fun _ => false

/-- The freshly initialised machine state built in `main` (zero registers,
timers, stack and display, `pc` at the program start), before the font table
and ROM are copied into memory. -/
def initState : Chip8 :=
  { memory := fun _ => 0
  , display := fun _ => 0
  , pc := ADDR_START_PROGRAM
  , stack := []
  , delay := 0
  , sound := 0
  , v := fun _ => 0
  , i := 0 }

end Fe08

namespace Fe08

/-- Machine with a one-pixel sprite row `0x80` followed by an empty row `0x00`
at memory address 0, and only the leftmost pixel of display row 0 lit. -/
def c1state : Chip8 :=
  { initState with
    memory := fun a => if a = 0 then 0x80 else 0,
    display := fun r => if r = 0 then 0x8000000000000000 else 0 }

/-- Machine with the font table burned in and every register holding `0xF`. -/
def c2state : Chip8 := { initState with memory := initMemory, v := fun _ => 0xF }

/-- Keypad state with only key 3 held. -/
def key3 : Nat → Bool := fun k => decide (k = 3)

/-- Machine whose program region starts with the `F00A` instruction at `0x200`. -/
def c7state : Chip8 :=
  { initState with
    memory := fun a => if a = 0x200 then 0xF0 else if a = 0x201 then 0x0A else 0 }

/-- Machine with `V0 = 2` and all other registers zero. -/
def c8state : Chip8 := { initState with v := fun j => if j = 0 then 2 else 0 }

/-- Machine with `V1 = 3` and all other registers zero. -/
def c8wstate : Chip8 := { initState with v := fun j => if j = 1 then 3 else 0 }

/-- Machine with return addresses `0x300` (most recent) and `0x400` on the stack. -/
def c9state : Chip8 := { initState with stack := [0x300, 0x400] }

/-- For 16-bit values, the Fx1E flag test `value & 0xF000 > 0` of the source is
exactly the carry-into-bit-12 test `value > 0xFFF`. -/
theorem land_f000_pos_iff (v : Nat) (hv : v < 65536) : 0 < v &&& 0xF000 ↔ 0xFFF < v := by
  constructor
  · intro h
    have hle : v &&& 0xF000 ≤ v := Nat.and_le_left
    have e : (0xF000 &&& 0xFFF : Nat) = 0 := by decide
    have h0 : (v &&& 0xF000) &&& 0xFFF = 0 := by
      rw [Nat.and_assoc, e, Nat.and_zero]
    have h4095 : (0xFFF : Nat) = 2 ^ 12 - 1 := by norm_num
    rw [h4095, Nat.and_pow_two_sub_one_eq_mod] at h0
    omega
  · intro h
    by_contra hc
    have h0 : v &&& 0xF000 = 0 := by omega
    have h1 : v &&& 0xFFFF = v % 65536 := by
      have e : (0xFFFF : Nat) = 2 ^ 16 - 1 := by norm_num
      rw [e, Nat.and_pow_two_sub_one_eq_mod]
    have h2 : v &&& 0xFFFF = (v &&& 0xF000) ||| (v &&& 0xFFF) := by
      have e : (0xFFFF : Nat) = 0xF000 ||| 0xFFF := by decide
      rw [e, Nat.and_or_distrib_left]
    have h3 : v &&& 0xFFF = v % 4096 := by
      have e : (0xFFF : Nat) = 2 ^ 12 - 1 := by norm_num
      rw [e, Nat.and_pow_two_sub_one_eq_mod]
    rw [h0, h1, h3] at h2
    simp at h2
    omega

/-- Decomposition of an `Fx` opcode byte into its two nibbles. -/
theorem fx_byte_split : ∀ z, z < 16 →
    ((0xF0 + z) &&& 0xF0 = 0xF0 ∧ (0xF0 + z) &&& 0x0F = z) := by decide

/-- C1: drawing a two-row sprite whose first row `0x80` collides with a lit
pixel and whose second row is `0x00` ends with `VF = 0`, even though the first
row's sprite bit overlapped a lit pixel (the cleared display row shows the
pixel was indeed toggled off).  The DRW arm overwrites `v[0xF]` with each
row's collision result instead of accumulating an OR across rows, so the
claim's accumulated flag is lost to the last row's result. -/
theorem c1_drw_vf_overwritten :
    regAfter (execOp noKeys noKeys 0 ⟨0xD, 0x0, 0x1, 0x2, 0, 0⟩ c1state) 0xF = some 0 ∧
    rowAfter (execOp noKeys noKeys 0 ⟨0xD, 0x0, 0x1, 0x2, 0, 0⟩ c1state) 0 = some 0 := by
  decide

/-- C2: executing Fx29 with `Vx = 0xF` loads `I = 0x09A` from `FONT_ADDR`,
yet the font copy burns glyph F at base `0x050 + 5 * 0xF = 0x09B` (its first
two bytes being `0xF0, 0x80`), while `0x09A` is the last byte of glyph E and
the byte after it is `0xF0`, not glyph F's second byte `0x80`: the table's
final entry is off by one from the claimed `0x050 + 5k` layout. -/
theorem c2_font_addr_off_by_one :
    iAfter (execOp noKeys noKeys 0 ⟨0xF, 0x0, 0x2, 0x9, 0, 0⟩ c2state) = some 0x9A ∧
    FONT_ADDR.getD 0xF 0 = 0x9A ∧
    0x050 + 5 * 0xF = 0x9B ∧
    initMemory (0x050 + 5 * 0xF) = 0xF0 ∧
    initMemory (0x050 + 5 * 0xF + 1) = 0x80 ∧
    initMemory (0x9A + 1) = 0xF0 := by decide

/-- C3 counterexample: loading a 3584-byte ROM of `1`-bytes does not fill a
3584-byte program region: the byte at `0xE9F` (ROM offset 3231) is loaded but
the byte at `0xEA0` (ROM offset 3232, still inside the region the claim
asserts) stays `0` — the load stops at `ADDR_PROGRAM_END`, 352 bytes short of
the memory end. -/
theorem c3_rom_truncated_at_3232 :
    loadRom (List.replicate 3584 1) (fun _ => 0) 0xE9F = 1 ∧
    loadRom (List.replicate 3584 1) (fun _ => 0) 0xEA0 = 0 ∧
    (0xEA0 : Nat) < 0x200 + 3584 := by
  refine ⟨?_, by decide, by decide⟩
  show (if _ then _ else _) = 1
  rw [if_pos]
  · rw [List.getD_eq_getElem?_getD, List.getElem?_replicate]
    decide
  · refine ⟨by decide, by decide, ?_⟩
    rw [List.length_replicate]
    decide

/-- C3 amended: the program region is `0x200 ≤ a < 0xEA0`, capacity
`ADDR_PROGRAM_END - ADDR_START_PROGRAM = 3232` bytes.  Every address of the
region below the ROM length receives the corresponding ROM byte — so a
3232-byte ROM fills the region exactly to its boundary — and no address at or
past `ADDR_PROGRAM_END` is ever written: an oversized ROM is silently
truncated, never overflowing into the reserved trailing block, and no warning
or rejection is signalled. -/
theorem c3_program_region_capacity (rom : List Nat) (mem : Nat → Nat) (a : Nat) :
    (ADDR_START_PROGRAM ≤ a → a < ADDR_PROGRAM_END → a - ADDR_START_PROGRAM < rom.length →
      loadRom rom mem a = rom.getD (a - ADDR_START_PROGRAM) 0) ∧
    (ADDR_PROGRAM_END ≤ a → loadRom rom mem a = mem a) ∧
    ADDR_PROGRAM_END - ADDR_START_PROGRAM = 3232 := by
  refine ⟨fun h1 h2 h3 => ?_, fun h => ?_, by decide⟩
  · simp [loadRom, h1, h2, h3]
  · have hend : ADDR_PROGRAM_END = 3744 := rfl
    have hna : ¬ (ADDR_START_PROGRAM ≤ a ∧ a < ADDR_PROGRAM_END ∧
        a - ADDR_START_PROGRAM < rom.length) := by
      rw [hend] at h
      intro hcon
      rw [hend] at hcon
      omega
    simp [loadRom, hna]

/-- C3 witness: a 3233-byte ROM has its first byte loaded at `0x200` while
address `0xEA0` stays untouched. -/
theorem c3_program_region_capacity_witness :
    loadRom (List.replicate 3233 7) (fun _ => 0) 0x200 = 7 ∧
    loadRom (List.replicate 3233 7) (fun _ => 0) 0xEA0 = 0 := by
  constructor
  · have h := (c3_program_region_capacity (List.replicate 3233 7) (fun _ => 0) 0x200).1
      (by decide) (by decide) (by rw [List.length_replicate]; decide)
    exact h.trans (by decide)
  · exact (c3_program_region_capacity (List.replicate 3233 7) (fun _ => 0) 0xEA0).2.1 (by decide)

/-- C4: the decoder fails at `pc = 0xFFE` even though `pc + 1 = 0xFFF` is
addressable and the function only ever reads two bytes — the
`assert!(slice.len() > 2)` is one stricter than the two bytes actually read —
while `pc = 0xFFD` still decodes.  This contradicts the claimed
fails-iff-`pc+1 > 0xFFF` boundary. -/
theorem c4_decode_boundary :
    fromSlice (fun _ => 0) 0xFFE = .error .assertFailed ∧
    0xFFE + 1 ≤ 0xFFF ∧
    fromSlice (fun _ => 0) 0xFFD = .ok ⟨0, 0, 0, 0, 0, 0⟩ :=
  ⟨rfl, by decide, rfl⟩

/-- C5: the BCD store Fx33 with `I = 0xFFE`, the register/memory copies
Fx55/Fx65 with `I = 0xFF1` and `x = 0xF`, and a two-row DRW fetch with
`I = 0xFFF` all abort with the error value that models Rust's implicit
out-of-bounds panic on unchecked indexing; the source has no distinct,
explicitly checked MemoryAccessViolation error kind. -/
theorem c5_unchecked_bounds_panics :
    execOp noKeys noKeys 0 ⟨0xF, 0x0, 0x3, 0x3, 0, 0⟩ { initState with i := 0xFFE } =
      .error .outOfBounds ∧
    execOp noKeys noKeys 0 ⟨0xF, 0xF, 0x5, 0x5, 0, 0⟩ { initState with i := 0xFF1 } =
      .error .outOfBounds ∧
    execOp noKeys noKeys 0 ⟨0xF, 0xF, 0x6, 0x5, 0, 0⟩ { initState with i := 0xFF1 } =
      .error .outOfBounds ∧
    execOp noKeys noKeys 0 ⟨0xD, 0x0, 0x0, 0x2, 0, 0⟩ { initState with i := 0xFFF } =
      .error .outOfBounds :=
  ⟨rfl, rfl, rfl, rfl⟩

/-- C6: for every machine state and register selector, Fx1E sets `I` to the
16-bit wrapped sum `I + Vx` and `VF` to 1 exactly when that result exceeds
`0xFFF` (carry into bit 12), else 0 — including when the prior `I` is above
`0xFFF` or the 16-bit addition wraps. -/
theorem c6_fx1e_carry (c : Chip8) (keys last_keys : Nat → Bool) (rnd x a b : Nat) :
    execOp keys last_keys rnd ⟨0xF, x, 0x1, 0xE, a, b⟩ c =
      .ok { c with v := upd c.v 0xF (if 0xFFF < (c.i + c.v x) % 0x10000 then 1 else 0),
                   i := (c.i + c.v x) % 0x10000 } := by
  have hlt : (c.i + c.v x) % 0x10000 < 65536 := Nat.mod_lt _ (by norm_num)
  simp only [execOp, wrap16]
  simp only [land_f000_pos_iff _ hlt]

/-- C7: stepping an Fx0A instruction: if no key index has a release transition
(pressed in the previous tick's keypad state and not pressed in the current
one) the step returns the machine unchanged — `pc` is rewound so the very same
instruction is re-fetched, so in particular a fresh press does not advance —
and if some key has a release transition, the first such key index `k` is
stored into `Vx` and `pc` advances past the instruction. -/
theorem c7_fx0a_release_wait (c : Chip8) (keys last_keys : Nat → Bool) (rnd x k : Nat)
    (hx : x < 16) (hpc : c.pc + 2 < MEMORY_SIZE)
    (hb0 : c.memory c.pc = 0xF0 + x) (hb1 : c.memory (c.pc + 1) = 0x0A) :
    (findRelease last_keys keys = none → step keys last_keys rnd c = .ok c) ∧
    (findRelease last_keys keys = some k →
      step keys last_keys rnd c = .ok { c with pc := c.pc + 2, v := upd c.v x k } ∧
      last_keys k = true ∧ keys k = false) := by
  have hmem : MEMORY_SIZE = 4096 := rfl
  have hcond : MEMORY_SIZE - c.pc > 2 := by omega
  have hw : wrap16 (c.pc + 2) = c.pc + 2 := by
    simp only [wrap16]
    omega
  have hn0 := (fx_byte_split x hx).1
  have hn1 := (fx_byte_split x hx).2
  constructor
  · intro hnone
    simp only [step, fromSlice, hb0, hb1, if_pos hcond, hn0, hn1, execOp, hnone, hw]
    have h2 : wrap16 (c.pc + 2 + 0x10000 - 2) = c.pc := by
      simp only [wrap16]
      omega
    rw [h2]
  · intro hsome
    have hfound := List.find?_some hsome
    simp only [Bool.and_eq_true] at hfound
    have hlk : last_keys k = true := hfound.1
    have hk : keys k = false := by
      have hx2 := hfound.2
      rw [hlk] at hx2
      cases hkk : keys k
      · rfl
      · rw [hkk] at hx2
        simp at hx2
    refine ⟨?_, hlk, hk⟩
    simp only [step, fromSlice, hb0, hb1, if_pos hcond, hn0, hn1, execOp, hsome, hw]
    have h2 : wrap16 (wrap16 (c.pc + 2 + 0x10000 - 2) + 2) = c.pc + 2 := by
      simp only [wrap16]
      omega
    rw [h2]

/-- C7 witness: with key 3 pressed last tick and released now, the Fx0A step
from `0x200` advances to `0x202` with `V0 = 3`; with key 3 freshly pressed
(not pressed last tick), the step leaves the machine unchanged. -/
theorem c7_fx0a_release_wait_witness :
    step noKeys key3 0 c7state = .ok { c7state with pc := 0x202, v := upd c7state.v 0 3 } ∧
    (key3 3 = true ∧ noKeys 3 = false) ∧
    step key3 noKeys 0 c7state = .ok c7state := by
  have hA := (c7_fx0a_release_wait c7state noKeys key3 0 0 3 (by decide) (by decide) rfl rfl).2
    (by decide)
  have hB := (c7_fx0a_release_wait c7state key3 noKeys 0 0 0 (by decide) (by decide) rfl rfl).1
    (by decide)
  exact ⟨hA.1, hA.2, hB⟩

/-- C8 counterexample: executing 8xy6 with `x = 0xF`, `y = 0x0` and `V0 = 2`:
the claim requires `Vx` (here the register `VF` itself) to receive
`Vy >> 1 = 1`, but execution leaves `VF = 0` — the flag write performed after
the shift overwrites the shifted value. -/
theorem c8_shr_vf_target_clobbered :
    regAfter (execOp noKeys noKeys 0 ⟨0x8, 0xF, 0x0, 0x6, 0, 0⟩ c8state) 0xF = some 0 ∧
    c8state.v 0x0 >>> 1 = 1 := by decide

/-- C8 amended: 8xy6 and 8xyE always read their source from `Vy`, never from
`Vx`: `VF` always receives the pre-shift low (resp. high) bit of `Vy`, and for
every `x ≠ 0xF`, `Vx` receives `Vy >> 1` (resp. `Vy << 1` with 8-bit
wraparound) — including `x = y`.  When `x = 0xF` the flag write, which comes
second, overwrites the shifted value, so only the flag part survives. -/
theorem c8_shift_semantics (c : Chip8) (keys last_keys : Nat → Bool) (rnd x y a b : Nat) :
    regAfter (execOp keys last_keys rnd ⟨0x8, x, y, 0x6, a, b⟩ c) 0xF = some (c.v y &&& 0x1) ∧
    (x ≠ 0xF → regAfter (execOp keys last_keys rnd ⟨0x8, x, y, 0x6, a, b⟩ c) x =
      some (c.v y >>> 1)) ∧
    regAfter (execOp keys last_keys rnd ⟨0x8, x, y, 0xE, a, b⟩ c) 0xF =
      some ((c.v y &&& 0b10000000) >>> 7) ∧
    (x ≠ 0xF → regAfter (execOp keys last_keys rnd ⟨0x8, x, y, 0xE, a, b⟩ c) x =
      some ((c.v y <<< 1) % 256)) := by
  refine ⟨?_, fun hx => ?_, ?_, fun hx => ?_⟩
  · simp [execOp, regAfter, Except.toOption, upd]
  · simp [execOp, regAfter, Except.toOption, upd, hx]
  · simp [execOp, regAfter, Except.toOption, upd]
  · simp [execOp, regAfter, Except.toOption, upd, hx]

/-- C8 witness: with `x = 0`, `y = 1` and `V1 = 3`: 8016 gives `VF = 1` and
`V0 = 1`; 801E gives `VF = 0` and `V0 = 6`. -/
theorem c8_shift_semantics_witness :
    regAfter (execOp noKeys noKeys 0 ⟨0x8, 0x0, 0x1, 0x6, 0, 0⟩ c8wstate) 0xF = some 1 ∧
    regAfter (execOp noKeys noKeys 0 ⟨0x8, 0x0, 0x1, 0x6, 0, 0⟩ c8wstate) 0x0 = some 1 ∧
    regAfter (execOp noKeys noKeys 0 ⟨0x8, 0x0, 0x1, 0xE, 0, 0⟩ c8wstate) 0xF = some 0 ∧
    regAfter (execOp noKeys noKeys 0 ⟨0x8, 0x0, 0x1, 0xE, 0, 0⟩ c8wstate) 0x0 = some 6 := by
  have h := c8_shift_semantics c8wstate noKeys noKeys 0 0 1 0 0
  exact ⟨h.1, h.2.1 (by decide), h.2.2.1, h.2.2.2 (by decide)⟩

/-- C9: RET (00EE) on an empty call stack produces the stack-underflow error
value (the modelled `unwrap` panic — a terminating error surfaced to the host,
never a silent no-op), and on a non-empty stack it pops the head — which the
CALL conjunct shows is the most recently pushed return address — into `pc`. -/
theorem c9_ret_underflow (c : Chip8) (keys last_keys : Nat → Bool)
    (rnd a b p q r s t u : Nat) (rest : List Nat) :
    (c.stack = [] →
      execOp keys last_keys rnd ⟨0x0, 0x0, 0xE, 0xE, a, b⟩ c = .error .stackUnderflow) ∧
    (c.stack = p :: rest →
      execOp keys last_keys rnd ⟨0x0, 0x0, 0xE, 0xE, a, b⟩ c =
        .ok { c with pc := p, stack := rest }) ∧
    execOp keys last_keys rnd ⟨0x2, q, r, s, t, u⟩ c =
      .ok { c with stack := c.pc :: c.stack, pc := t } := by
  refine ⟨fun h => ?_, fun h => ?_, ?_⟩
  · simp [execOp, h]
  · simp [execOp, h]
  · simp [execOp]

/-- C9 witness: RET on the initial (empty-stack) machine errors with
stack-underflow; RET with stack `[0x300, 0x400]` jumps to `0x300` leaving
`[0x400]`; CALL `0x500` from the initial machine pushes `0x200`. -/
theorem c9_ret_underflow_witness :
    execOp noKeys noKeys 0 ⟨0x0, 0x0, 0xE, 0xE, 0, 0⟩ initState = .error .stackUnderflow ∧
    execOp noKeys noKeys 0 ⟨0x0, 0x0, 0xE, 0xE, 0, 0⟩ c9state =
      .ok { c9state with pc := 0x300, stack := [0x400] } ∧
    execOp noKeys noKeys 0 ⟨0x2, 0x5, 0x0, 0x0, 0x500, 0⟩ initState =
      .ok { initState with stack := [0x200], pc := 0x500 } := by
  refine ⟨?_, ?_, ?_⟩
  · exact (c9_ret_underflow initState noKeys noKeys 0 0 0 0 0 0 0 0 0 []).1 rfl
  · exact (c9_ret_underflow c9state noKeys noKeys 0 0 0 0x300 0 0 0 0 0 [0x400]).2.1 rfl
  · exact (c9_ret_underflow initState noKeys noKeys 0 0 0 0 0x5 0 0 0x500 0 []).2.2

/-- C10: after any of 8xy1 (OR), 8xy2 (AND), 8xy3 (XOR), register `VF` is 0,
for every machine state and every `x` and `y` — including `x = 0xF`, whose
bitwise result is immediately overwritten — with no configuration point. -/
theorem c10_logic_ops_clear_vf (c : Chip8) (keys last_keys : Nat → Bool) (rnd x y a b : Nat) :
    regAfter (execOp keys last_keys rnd ⟨0x8, x, y, 0x1, a, b⟩ c) 0xF = some 0 ∧
    regAfter (execOp keys last_keys rnd ⟨0x8, x, y, 0x2, a, b⟩ c) 0xF = some 0 ∧
    regAfter (execOp keys last_keys rnd ⟨0x8, x, y, 0x3, a, b⟩ c) 0xF = some 0 := by
  refine ⟨?_, ?_, ?_⟩
  · simp [execOp, regAfter, Except.toOption, upd]
  · simp [execOp, regAfter, Except.toOption, upd]
  · simp [execOp, regAfter, Except.toOption, upd]

end Fe08
